import Mathlib

/-! Verification of the RAPTOR-Q retrieval-indexing core and of the QuestionGenerator
frontend component.

The numeric core of the VelociRAPTOR subproject (raptor.py, gmm.py, umap.py,
retrieval.py, routing.py, translation.py) is described by the specification and the
subproject README, but those files are not among the provided sources; definitions whose
doc comment starts with "Modelled from the spec:" embed those parts from the
specification text, with the genuinely numeric external pieces (EM fit, UMAP layout
optimization, the generation capability) taken as explicit function arguments so that
the theorems hold for every choice of them.  The QuestionGenerator React component is
embedded directly from src/app/frontend/src/components/QuestionGenerator.js. -/

/-- A node of the RAPTOR tree: level, text, embedding and child identifiers. -/
structure TreeNode where
  level : Nat
  text : String
  embedding : List ℚ
  children : List Nat
deriving DecidableEq

/-- Tree-building configuration (the field the claims need: the maximum depth). -/
structure BuildConfig where
  maxDepth : Nat
deriving DecidableEq

/-- Modelled from the spec: one round of reduce, cluster, summarize and re-embed turns
the nodes of level L into the nodes of level L + 1.  The numeric sources (umap.py,
gmm.py) and the external summarizer are not among the provided sources, so the round is
an explicit function argument of the builder and the theorems hold for every round.
Construction is the iterative loop of the spec: it stops when the current level has at
most one node (root reached) or the level counter has reached the configured maximum
depth, the remaining allowance being the explicit fuel. -/
def buildFrom (round : Nat → List TreeNode → List TreeNode) :
    Nat → Nat → List TreeNode → List (List TreeNode)
  | _, 0, current => [current]
  | lvl, fuel + 1, current =>
    if current.length ≤ 1 then [current]
    else current :: buildFrom round (lvl + 1) fuel (round lvl current)

/-- Modelled from the spec: build_tree runs the level-by-level loop starting from the
chunk set at level 0, with fuel equal to the configured maximum depth. -/
def build_tree (round : Nat → List TreeNode → List TreeNode) (chunks : List TreeNode)
    (cfg : BuildConfig) : List (List TreeNode) :=
  buildFrom round 0 cfg.maxDepth chunks

/-- The maximum level index of a tree given as its list of levels. -/
def maxLevel (tree : List (List TreeNode)) : Nat := tree.length - 1

theorem buildFrom_length_le (round : Nat → List TreeNode → List TreeNode) :
    ∀ (fuel lvl : Nat) (current : List TreeNode),
      (buildFrom round lvl fuel current).length ≤ fuel + 1
  | 0, _, _ => by simp [buildFrom]
  | fuel + 1, lvl, current => by
    by_cases h : current.length ≤ 1
    · simp [buildFrom, h]
    · simp only [buildFrom, if_neg h, List.length_cons]
      have ih := buildFrom_length_le round fuel (lvl + 1) (round lvl current)
      omega

/-- C1: build_tree is a total function (the level-by-level loop carries explicit fuel
equal to the configured maximum depth, so construction terminates for every chunk set,
every round and every configuration), and the resulting tree's maximum level never
exceeds the configured maximum depth. -/
theorem build_tree_maxLevel_le (round : Nat → List TreeNode → List TreeNode)
    (chunks : List TreeNode) (cfg : BuildConfig) :
    maxLevel (build_tree round chunks cfg) ≤ cfg.maxDepth := by
  have h := buildFrom_length_le round cfg.maxDepth 0 chunks
  simp only [build_tree, maxLevel]
  omega

/-- Modelled from the spec: the selection loop of BIC model-order selection.  The BIC
score of the K-component EM fit is abstracted as a function from K to a rational score
(gmm.py is not among the provided sources); the loop keeps the best candidate so far,
replacing it only on a strictly smaller score, so ties keep the earlier (smaller) K. -/
def selectFrom (bic : Nat → ℚ) : Nat → Nat → Nat → Nat
  | best, _, 0 => best
  | best, k, n + 1 => selectFrom bic (if bic k < bic best then k else best) (k + 1) n

/-- Modelled from the spec: BIC model-order selection over the range from minK to maxK,
choosing the K with minimal BIC, ties broken by smaller K. -/
def selectK (minK maxK : Nat) (bic : Nat → ℚ) : Nat :=
  selectFrom bic minK (minK + 1) (maxK - minK)

/-- The ascending run of n candidate component counts starting at k. -/
def candList : Nat → Nat → List Nat
  | _, 0 => []
  | k, n + 1 => k :: candList (k + 1) n

/-- The candidate component counts the selection loop evaluates, in loop order. -/
def candidates (minK maxK : Nat) : List Nat := minK :: candList (minK + 1) (maxK - minK)

theorem mem_candList : ∀ (n k j : Nat), j ∈ candList k n ↔ (k ≤ j ∧ j < k + n)
  | 0, k, j => by simp [candList]
  | n + 1, k, j => by
    simp only [candList, List.mem_cons, mem_candList n (k + 1) j]
    omega

theorem selectFrom_spec (bic : Nat → ℚ) :
    ∀ (n k best : Nat), best < k →
      bic (selectFrom bic best k n) ≤ bic best ∧
      (∀ j, k ≤ j → j < k + n → bic (selectFrom bic best k n) ≤ bic j) ∧
      (selectFrom bic best k n = best ∨
        (k ≤ selectFrom bic best k n ∧ selectFrom bic best k n < k + n ∧
         bic (selectFrom bic best k n) < bic best)) ∧
      (∀ j, k ≤ j → j < k + n → bic j = bic (selectFrom bic best k n) →
        selectFrom bic best k n ≤ j)
  | 0, k, best, _ => by
    refine ⟨le_refl _, ?_, Or.inl rfl, ?_⟩
    · intro j h1 h2; exact absurd h2 (by omega)
    · intro j h1 h2; exact absurd h2 (by omega)
  | n + 1, k, best, hbk => by
    by_cases hk : bic k < bic best
    · simp only [selectFrom, if_pos hk]
      obtain ⟨ih1, ih2, ih3, ih4⟩ := selectFrom_spec bic n (k + 1) k (by omega)
      refine ⟨le_of_lt (lt_of_le_of_lt ih1 hk), ?_, ?_, ?_⟩
      · intro j h1 h2
        rcases Nat.eq_or_lt_of_le h1 with h | h
        · rw [← h]; exact ih1
        · exact ih2 j h (by omega)
      · rcases ih3 with h | ⟨ha, hb, hc⟩
        · exact Or.inr ⟨by omega, by omega, by rw [h]; exact hk⟩
        · exact Or.inr ⟨by omega, by omega, lt_trans hc hk⟩
      · intro j h1 h2 h3
        rcases Nat.eq_or_lt_of_le h1 with h | h
        · subst h
          rcases ih3 with hr | ⟨_, _, hc⟩
          · omega
          · exact absurd (h3 ▸ hc) (lt_irrefl _)
        · exact ih4 j h (by omega) h3
    · simp only [selectFrom, if_neg hk]
      have hbk2 : bic best ≤ bic k := le_of_not_lt hk
      obtain ⟨ih1, ih2, ih3, ih4⟩ := selectFrom_spec bic n (k + 1) best (by omega)
      refine ⟨ih1, ?_, ?_, ?_⟩
      · intro j h1 h2
        rcases Nat.eq_or_lt_of_le h1 with h | h
        · rw [← h]; exact le_trans ih1 hbk2
        · exact ih2 j h (by omega)
      · rcases ih3 with h | ⟨ha, hb, hc⟩
        · exact Or.inl h
        · exact Or.inr ⟨by omega, by omega, hc⟩
      · intro j h1 h2 h3
        rcases Nat.eq_or_lt_of_le h1 with h | h
        · subst h
          rcases ih3 with hr | ⟨_, _, hc⟩
          · omega
          · exact absurd (h3 ▸ lt_of_lt_of_le hc hbk2) (lt_irrefl _)
        · exact ih4 j h (by omega) h3

/-- C2: model-order selection evaluates exactly the candidates in the range from minK to
maxK, returns a K inside that range whose BIC score is minimal over the range, and on
BIC ties the selected K is the smaller one. -/
theorem selectK_min_bic (minK maxK : Nat) (bic : Nat → ℚ) (h : minK ≤ maxK) :
    (∀ j, j ∈ candidates minK maxK ↔ (minK ≤ j ∧ j ≤ maxK)) ∧
    minK ≤ selectK minK maxK bic ∧ selectK minK maxK bic ≤ maxK ∧
    (∀ j, minK ≤ j → j ≤ maxK → bic (selectK minK maxK bic) ≤ bic j) ∧
    (∀ j, minK ≤ j → j ≤ maxK → bic j = bic (selectK minK maxK bic) →
      selectK minK maxK bic ≤ j) := by
  obtain ⟨h1, h2, h3, h4⟩ :=
    selectFrom_spec bic (maxK - minK) (minK + 1) minK (by omega)
  have hsel : selectK minK maxK bic = selectFrom bic minK (minK + 1) (maxK - minK) := rfl
  rw [hsel]
  refine ⟨?_, ?_, ?_, ?_, ?_⟩
  · intro j
    simp only [candidates, List.mem_cons, mem_candList]
    omega
  · rcases h3 with hr | ⟨ha, _, _⟩
    · omega
    · omega
  · rcases h3 with hr | ⟨_, hb, _⟩
    · omega
    · omega
  · intro j hj1 hj2
    rcases Nat.eq_or_lt_of_le hj1 with hj | hj
    · rw [← hj]; exact h1
    · exact h2 j (by omega) (by omega)
  · intro j hj1 hj2 hj3
    rcases Nat.eq_or_lt_of_le hj1 with hj | hj
    · subst hj
      rcases h3 with hr | ⟨_, _, hc⟩
      · omega
      · exact absurd (hj3 ▸ hc) (lt_irrefl _)
    · exact h4 j (by omega) (by omega) hj3

/-- A concrete BIC score curve, minimal at K = 2, for the witness. -/
def bicEx : Nat → ℚ := fun k => ((k : ℚ) - 2) ^ 2

theorem selectK_min_bic_witness :
    (∀ j, j ∈ candidates 1 3 ↔ (1 ≤ j ∧ j ≤ 3)) ∧
    1 ≤ selectK 1 3 bicEx ∧ selectK 1 3 bicEx ≤ 3 ∧
    (∀ j, 1 ≤ j → j ≤ 3 → bicEx (selectK 1 3 bicEx) ≤ bicEx j) ∧
    (∀ j, 1 ≤ j → j ≤ 3 → bicEx j = bicEx (selectK 1 3 bicEx) →
      selectK 1 3 bicEx ≤ j) :=
  selectK_min_bic 1 3 bicEx (by omega)

/-- Soft clustering output: the chosen component count and, per input point, the list of
responsibilities (one per component). -/
structure ClusterResult where
  numClusters : Nat
  responsibilities : List (List ℚ)
deriving DecidableEq

/-- The degenerate single-cluster fallback: one component, every responsibility 1. -/
def degenerateResult (m : Nat) : ClusterResult :=
  { numClusters := 1, responsibilities := List.replicate m [1] }

/-- Modelled from the spec: the Gaussian mixture clusterer (gmm.py is not among the
provided sources).  The EM fit with BIC selection for the viable case is an explicit
function argument; the clusterer checks the minimum viable input size first and falls
back to the degenerate single-cluster result below it, so it is a total function (it
never throws) whatever the fit does. -/
def gmm_cluster (emFit : List (List ℚ) → Nat → Nat → ClusterResult)
    (points : List (List ℚ)) (minK maxK : Nat) : ClusterResult :=
  if points.length < minK * 2 then degenerateResult points.length
  else emFit points minK maxK

/-- C3: with fewer than minK·2 input points the clusterer returns, for every EM fit
(in particular without ever reaching code that could throw), the degenerate
single-cluster result covering all points with every responsibility equal to 1. -/
theorem gmm_cluster_degenerate (emFit : List (List ℚ) → Nat → Nat → ClusterResult)
    (points : List (List ℚ)) (minK maxK : Nat) (h : points.length < minK * 2) :
    gmm_cluster emFit points minK maxK = degenerateResult points.length ∧
    (gmm_cluster emFit points minK maxK).numClusters = 1 ∧
    (gmm_cluster emFit points minK maxK).responsibilities.length = points.length ∧
    ∀ r ∈ (gmm_cluster emFit points minK maxK).responsibilities, r = [1] := by
  have h1 : gmm_cluster emFit points minK maxK = degenerateResult points.length := by
    simp [gmm_cluster, h]
  refine ⟨h1, by rw [h1]; simp [degenerateResult], ?_, ?_⟩
  · rw [h1]; simp [degenerateResult]
  · rw [h1]
    intro r hr
    exact List.eq_of_mem_replicate hr

/-- A trivial EM fit placeholder for the witness. -/
def emFitEx : List (List ℚ) → Nat → Nat → ClusterResult := fun _ _ _ => ⟨0, []⟩

theorem gmm_cluster_degenerate_witness :
    gmm_cluster emFitEx [[0], [1]] 2 4 = degenerateResult 2 ∧
    (gmm_cluster emFitEx [[0], [1]] 2 4).numClusters = 1 ∧
    (gmm_cluster emFitEx [[0], [1]] 2 4).responsibilities.length = 2 ∧
    ∀ r ∈ (gmm_cluster emFitEx [[0], [1]] 2 4).responsibilities, r = [1] :=
  gmm_cluster_degenerate emFitEx [[0], [1]] 2 4 (by decide)

/-- Modelled from the spec: the dimensionality reducer (umap.py is not among the
provided sources).  The iterative neighbor-graph layout optimization for the viable case
is an explicit function argument; with at most one input point the reducer returns its
input unchanged (the identity mapping) instead of failing. -/
def reduce_dim (optimize : List (List ℚ) → Nat → List (List ℚ))
    (points : List (List ℚ)) (targetDim : Nat) : List (List ℚ) :=
  if points.length ≤ 1 then points else optimize points targetDim

/-- C7: with at most one input vector the reducer is the identity mapping, for every
layout optimizer; insufficient data never surfaces as a failure. -/
theorem reduce_dim_identity (optimize : List (List ℚ) → Nat → List (List ℚ))
    (points : List (List ℚ)) (targetDim : Nat) (h : points.length ≤ 1) :
    reduce_dim optimize points targetDim = points := by
  simp [reduce_dim, h]

/-- A trivial layout optimizer placeholder for the witness. -/
def optimizeEx : List (List ℚ) → Nat → List (List ℚ) := fun _ _ => []

theorem reduce_dim_identity_witness :
    reduce_dim optimizeEx [[1, 2]] 2 = [[1, 2]] :=
  reduce_dim_identity optimizeEx [[1, 2]] 2 (by decide)

/-- A retrieval candidate node: its text and its embedding. -/
structure RNode where
  text : String
  embedding : List ℚ
deriving DecidableEq

/-- Approximate token count of a node, proportional to its text length. -/
def tokenCount (n : RNode) : Nat := n.text.length

/-- Cumulative approximate token count of a node list. -/
def sumTokens (l : List RNode) : Nat := (l.map tokenCount).sum

/-- Sort a list by descending rational key (stable insertion sort). -/
def sortByDesc {α : Type} (key : α → ℚ) (l : List α) : List α :=
  List.insertionSort (fun a b => key b ≤ key a) l

/-- Modelled from the spec: greedy inclusion of whole nodes, highest rank first,
stopping as soon as the next node would push the cumulative approximate token count past
the budget; a node is either included whole or not at all, never truncated
(retrieval.py is not among the provided sources). -/
def greedyFill (budget : Nat) : Nat → List RNode → List RNode
  | _, [] => []
  | used, n :: rest =>
    if used + tokenCount n ≤ budget then n :: greedyFill budget (used + tokenCount n) rest
    else []

/-- Modelled from the spec: collapsed-tree retrieval flattens every node across all
levels into one candidate pool, ranks the pool by similarity to the query (the
similarity function stands for cosine similarity to the query embedding) and greedily
fills the token budget. -/
def collapsed_retrieve (sim : RNode → ℚ) (tree : List (List RNode)) (budget : Nat) :
    List RNode :=
  greedyFill budget 0 (sortByDesc sim tree.flatten)

/-- Modelled from the spec: retrieve with the collapsed-tree strategy. -/
def retrieve (sim : RNode → ℚ) (tree : List (List RNode)) (budget : Nat) : List RNode :=
  collapsed_retrieve sim tree budget

theorem greedyFill_budget (budget : Nat) :
    ∀ (l : List RNode) (used : Nat), used ≤ budget →
      used + sumTokens (greedyFill budget used l) ≤ budget
  | [], used, h => by simpa [greedyFill, sumTokens]
  | n :: rest, used, h => by
    by_cases hn : used + tokenCount n ≤ budget
    · have ih := greedyFill_budget budget rest (used + tokenCount n) hn
      simp only [greedyFill, if_pos hn, sumTokens, List.map_cons, List.sum_cons] at *
      omega
    · simp only [greedyFill, if_neg hn, sumTokens, List.map_nil, List.sum_nil]
      omega

theorem greedyFill_subset (budget : Nat) :
    ∀ (l : List RNode) (used : Nat) (n : RNode), n ∈ greedyFill budget used l → n ∈ l
  | [], used, n, h => by simp [greedyFill] at h
  | m :: rest, used, n, h => by
    by_cases hm : used + tokenCount m ≤ budget
    · simp only [greedyFill, if_pos hm, List.mem_cons] at h
      rcases h with h | h
      · exact h ▸ List.mem_cons_self m rest
      · exact List.mem_cons_of_mem m (greedyFill_subset budget rest _ n h)
    · simp [greedyFill, if_neg hm] at h

/-- C4: the cumulative approximate token count of the nodes returned by collapsed-tree
retrieval never exceeds the budget, and every returned node is one of the tree's nodes,
taken whole (reaching the budget only stops inclusion; no node text is truncated). -/
theorem collapsed_retrieve_budget (sim : RNode → ℚ) (tree : List (List RNode))
    (budget : Nat) :
    sumTokens (collapsed_retrieve sim tree budget) ≤ budget ∧
    ∀ n ∈ collapsed_retrieve sim tree budget, n ∈ tree.flatten := by
  constructor
  · have h := greedyFill_budget budget (sortByDesc sim tree.flatten) 0 (Nat.zero_le _)
    simpa [collapsed_retrieve] using h
  · intro n hn
    have h1 : n ∈ sortByDesc sim tree.flatten :=
      greedyFill_subset budget (sortByDesc sim tree.flatten) 0 n hn
    exact (List.perm_insertionSort _ tree.flatten).mem_iff.mp h1

/-- Maximum similarity of a node over a list of queries, given a per-query similarity. -/
def bestScore (simOf : String → RNode → ℚ) (queries : List String) (n : RNode) : ℚ :=
  match queries with
  | [] => 0
  | q :: qs => (qs.map (fun p => simOf p n)).foldl max (simOf q n)

/-- Modelled from the spec: multi-query expansion (translation.py is not among the
provided sources).  The external generation capability is an optional function argument;
when it is unavailable (none) the expander degrades to a plain single-query retrieve on
the original query.  When available, retrieval runs independently for the original query
and each generated variant, the results are merged by union with deduplication keeping
the best similarity observed, and the merged pool is re-filled under the token budget. -/
def expand_and_retrieve (gen : Option (String → List String))
    (simOf : String → RNode → ℚ) (query : String) (tree : List (List RNode))
    (budget : Nat) : List RNode :=
  match gen with
  | none => retrieve (simOf query) tree budget
  | some g =>
    let queries := query :: g query
    let pools := queries.map (fun q => retrieve (simOf q) tree budget)
    greedyFill budget 0 (sortByDesc (bestScore simOf queries) pools.flatten.dedup)

/-- C5: when the generation capability is unavailable, expand_and_retrieve returns a
result identical to a plain retrieve on the original query; being a total function of
its inputs, the expander never fails hard. -/
theorem expand_and_retrieve_degrades (simOf : String → RNode → ℚ) (query : String)
    (tree : List (List RNode)) (budget : Nat) :
    expand_and_retrieve none simOf query tree budget = retrieve (simOf query) tree budget :=
  rfl

/-- Dot product of two rational vectors. -/
def dotp (a b : List ℚ) : ℚ := (List.zipWith (fun x y => x * y) a b).sum

/-- Squared Euclidean norm of a rational vector. -/
def normSq (a : List ℚ) : ℚ := dotp a a

/-- Modelled from the spec: a computable ranking key for cosine similarity with a fixed
query.  Cosine similarity is dotp q e divided by the product of the norms; for a fixed
query, ranking by cosine equals ranking by sign(dotp q e) · (dotp q e)^2 / normSq e, a
strictly monotone image of the cosine that avoids square roots and stays rational. -/
def cosKey (q e : List ℚ) : ℚ :=
  if normSq e = 0 then 0
  else if 0 ≤ dotp q e then dotp q e * dotp q e / normSq e
  else -(dotp q e * dotp q e / normSq e)

/-- Routing with the ranking keys kept alongside the document identifiers. -/
def routeScored (q : List ℚ) (reps : List (String × List ℚ)) (k : Nat) :
    List (String × ℚ) :=
  ((sortByDesc (fun p => cosKey q p.2) reps).map (fun p => (p.1, cosKey q p.2))).take k

/-- Modelled from the spec: the semantic router returns the ordered top-k document
identifiers by cosine similarity with the query (routing.py is not among the provided
sources); it is a pure function of the query and the representative map. -/
def route (q : List ℚ) (reps : List (String × List ℚ)) (k : Nat) : List String :=
  (routeScored q reps k).map Prod.fst

/-- C6: route is deterministic: two invocations on the same query and representative map
give the same list, which is the ordered top-k by the cosine ranking key (at most k
identifiers, ranked in non-increasing key order). -/
theorem route_deterministic (q : List ℚ) (reps : List (String × List ℚ)) (k : Nat) :
    route q reps k = route q reps k ∧
    (routeScored q reps k).map Prod.fst = route q reps k ∧
    (route q reps k).length ≤ k ∧
    List.Sorted (fun a b : ℚ => b ≤ a) ((routeScored q reps k).map Prod.snd) := by
  refine ⟨rfl, rfl, ?_, ?_⟩
  · simp only [route, routeScored, List.length_map, List.length_take]
    exact min_le_left _ _
  · have r : (String × List ℚ) → (String × List ℚ) → Prop :=
      fun a b => cosKey q b.2 ≤ cosKey q a.2
    haveI htot : IsTotal (String × List ℚ) (fun a b => cosKey q b.2 ≤ cosKey q a.2) :=
      ⟨fun a b => le_total _ _⟩
    haveI htr : IsTrans (String × List ℚ) (fun a b => cosKey q b.2 ≤ cosKey q a.2) :=
      ⟨fun a b c hab hbc => le_trans hbc hab⟩
    have hs := List.sorted_insertionSort (fun a b => cosKey q b.2 ≤ cosKey q a.2) reps
    have hp : List.Pairwise (fun a b => cosKey q b.2 ≤ cosKey q a.2)
        (List.take k (List.insertionSort (fun a b => cosKey q b.2 ≤ cosKey q a.2) reps)) :=
      List.Pairwise.sublist (List.take_sublist k _) hs
    simp only [routeScored, sortByDesc, ← List.map_take, List.map_map, List.Sorted,
      List.pairwise_map]
    exact hp

/-- Configuration state of the QuestionGenerator component, from the useState call at
src/app/frontend/src/components/QuestionGenerator.js lines 24-28. -/
structure QGConfig where
  numQuestions : Nat
  difficulty : String
  questionTypes : List String
deriving DecidableEq

/-- Full state of the QuestionGenerator component: its useState hooks. -/
structure QGState where
  uploadedFile : Option String
  fileId : Option String
  isUploading : Bool
  isGenerating : Bool
  generatedQuestions : Option (List String)
  generatedAnswers : Option (List String)
  config : QGConfig
deriving DecidableEq

/-- The initial state of the component's hooks: all file and result fields null, the
configuration 10 questions, easy, and the single question type short_answer. -/
def initState : QGState :=
  { uploadedFile := none
    fileId := none
    isUploading := false
    isGenerating := false
    generatedQuestions := none
    generatedAnswers := none
    config := { numQuestions := 10, difficulty := "easy", questionTypes := ["short_answer"] } }

/-- The two configuration keys the component's UI wires to handleConfigChange. -/
inductive ConfigKey where
  | numQuestions (n : Nat)
  | difficulty (d : String)

/-- handleConfigChange (QuestionGenerator.js lines 124-129): spread-update of one
configuration key; the JSX passes only numQuestions and difficulty through it. -/
def handleConfigChange (k : ConfigKey) (s : QGState) : QGState :=
  match k with
  | ConfigKey.numQuestions n => { s with config := { s.config with numQuestions := n } }
  | ConfigKey.difficulty d => { s with config := { s.config with difficulty := d } }

/-- handleQuestionTypeChange (QuestionGenerator.js lines 131-136): replaces
questionTypes with the one-element array holding the selected type. -/
def handleQuestionTypeChange (t : String) (s : QGState) : QGState :=
  { s with config := { s.config with questionTypes := [t] } }

/-- removeFile (QuestionGenerator.js lines 138-143): resets uploadedFile, fileId,
generatedQuestions and generatedAnswers to null. -/
def removeFile (s : QGState) : QGState :=
  { s with uploadedFile := none
           fileId := none
           generatedQuestions := none
           generatedAnswers := none }

/-- The onDrop upload handler outcome (QuestionGenerator.js lines 30-54): on success the
response carries the file name and its server file_id; on failure only the uploading
flag is reset. -/
def onDrop (outcome : Option (String × String)) (s : QGState) : QGState :=
  match outcome with
  | some nf => { s with uploadedFile := some nf.1, fileId := some nf.2, isUploading := false }
  | none => { s with isUploading := false }

/-- The request body POSTed to /api/generate-questions (QuestionGenerator.js
lines 75-80). -/
structure GenRequest where
  file_id : String
  num_questions : Nat
  difficulty : String
  question_types : List String
deriving DecidableEq

/-- handleGenerateQuestions (QuestionGenerator.js lines 68-92): with no fileId it shows
the error toast and returns before issuing any request; otherwise it POSTs the request
built from the config and, on success, stores the response questions and answer key
(isGenerating is reset in the finally block).  The result lists the state after the
call, the requests issued and the toasts shown. -/
def handleGenerateQuestions (resp : Option (List String × List String)) (s : QGState) :
    QGState × List GenRequest × List String :=
  match s.fileId with
  | none => (s, [], ["Please upload a file first"])
  | some fid =>
    let req : GenRequest :=
      { file_id := fid
        num_questions := s.config.numQuestions
        difficulty := s.config.difficulty
        question_types := s.config.questionTypes }
    match resp with
    | some qa =>
      ({ s with isGenerating := false
                generatedQuestions := some qa.1
                generatedAnswers := some qa.2 }, [req],
       ["Questions generated successfully!"])
    | none => ({ s with isGenerating := false }, [req], ["Failed to generate questions"])

/-- The user-visible events of the component that change its state. -/
inductive QGEvent where
  | drop (outcome : Option (String × String))
  | configChange (k : ConfigKey)
  | questionType (t : String)
  | generate (resp : Option (List String × List String))
  | remove

/-- One step of the component's state machine. -/
def qgStep (s : QGState) (e : QGEvent) : QGState :=
  match e with
  | QGEvent.drop o => onDrop o s
  | QGEvent.configChange k => handleConfigChange k s
  | QGEvent.questionType t => handleQuestionTypeChange t s
  | QGEvent.generate r => (handleGenerateQuestions r s).1
  | QGEvent.remove => removeFile s

/-- The component state after a sequence of user events from the initial state. -/
def qgRun (events : List QGEvent) : QGState := events.foldl qgStep initState

theorem qgStep_questionTypes_length (s : QGState) (e : QGEvent)
    (h : s.config.questionTypes.length = 1) :
    (qgStep s e).config.questionTypes.length = 1 := by
  cases e with
  | drop o => cases o <;> simpa [qgStep, onDrop]
  | configChange k => cases k <;> simpa [qgStep, handleConfigChange]
  | questionType t => simp [qgStep, handleQuestionTypeChange]
  | generate r =>
    cases hf : s.fileId with
    | none => simpa [qgStep, handleGenerateQuestions, hf]
    | some fid => cases r <;> simpa [qgStep, handleGenerateQuestions, hf]
  | remove => simpa [qgStep, removeFile]

/-- C8: starting from the initial state, after every sequence of user events the
questionTypes configuration holds exactly one element: the initial state sets it to the
single element short_answer, and every event either leaves it alone or replaces it with
a one-element array. -/
theorem qgRun_questionTypes_invariant (events : List QGEvent) :
    (qgRun events).config.questionTypes.length = 1 := by
  have main : ∀ (es : List QGEvent) (s : QGState), s.config.questionTypes.length = 1 →
      (es.foldl qgStep s).config.questionTypes.length = 1 := by
    intro es
    induction es with
    | nil => intro s hs; simpa
    | cons e es ih =>
      intro s hs
      exact ih (qgStep s e) (qgStep_questionTypes_length s e hs)
  exact main events initState (by simp [initState])

/-- C9: with no fileId present, handleGenerateQuestions reports the error toast and
returns before any request: no request to /api/generate-questions is issued and the
state, in particular generatedQuestions and generatedAnswers, is unchanged. -/
theorem handleGenerateQuestions_no_file (resp : Option (List String × List String))
    (s : QGState) (h : s.fileId = none) :
    handleGenerateQuestions resp s = (s, [], ["Please upload a file first"]) ∧
    (handleGenerateQuestions resp s).1.generatedQuestions = s.generatedQuestions ∧
    (handleGenerateQuestions resp s).1.generatedAnswers = s.generatedAnswers ∧
    (handleGenerateQuestions resp s).2.1 = [] := by
  have h1 : handleGenerateQuestions resp s = (s, [], ["Please upload a file first"]) := by
    simp [handleGenerateQuestions, h]
  exact ⟨h1, by rw [h1], by rw [h1], by rw [h1]⟩

theorem handleGenerateQuestions_no_file_witness :
    handleGenerateQuestions none initState = (initState, [], ["Please upload a file first"]) ∧
    (handleGenerateQuestions none initState).1.generatedQuestions =
      initState.generatedQuestions ∧
    (handleGenerateQuestions none initState).1.generatedAnswers =
      initState.generatedAnswers ∧
    (handleGenerateQuestions none initState).2.1 = [] :=
  handleGenerateQuestions_no_file none initState rfl

/-- The generate button's disabled condition from the JSX: no fileId or a generation in
flight. -/
def generateDisabled (s : QGState) : Bool := s.fileId.isNone || s.isGenerating

/-- C10: removeFile resets uploadedFile, fileId, generatedQuestions and generatedAnswers
to null in one step, and afterwards the generate button is disabled again. -/
theorem removeFile_resets (s : QGState) :
    (removeFile s).uploadedFile = none ∧ (removeFile s).fileId = none ∧
    (removeFile s).generatedQuestions = none ∧ (removeFile s).generatedAnswers = none ∧
    generateDisabled (removeFile s) = true := by
  simp [removeFile, generateDisabled]
